import Mathlib

/-
Verification of the ghostty-zed-extension completion engine
(shallow embedding of src/lsp/src/main.rs).

Rust strings are modelled as lists of characters (`Str`); byte positions
and character positions coincide on the ASCII data exercised here.
`to_lowercase` is modelled characterwise with `Char.toLower` and
`char::is_whitespace` with `Char.isWhitespace`, both adequate for the
ASCII strings the engine manipulates.  A Rust function that can panic is
embedded as an `Option`-returning function, `none` marking the panic.
-/

set_option maxHeartbeats 1000000

namespace GhosttyZed

abbrev Str := List Char

def toChars (s : String) : Str := s.data

/-- Rust `str::to_lowercase`, modelled characterwise. -/
def lower (s : Str) : Str := s.map Char.toLower

/-- Rust `str::trim_start`. -/
def trimStart (s : Str) : Str := s.dropWhile Char.isWhitespace

/-- Rust `str::trim_end`. -/
def trimEnd (s : Str) : Str := (s.reverse.dropWhile Char.isWhitespace).reverse

/-- Rust `str::trim`. -/
def trim (s : Str) : Str := trimEnd (trimStart s)

/-- Rust `str::contains(&str)`: substring containment (an empty needle matches). -/
def containsStr : Str → Str → Bool
  | [], needle => needle.isEmpty
  | c :: rest, needle => needle.isPrefixOf (c :: rest) || containsStr rest needle

/-- Rust `str::contains(char)`. -/
def containsChar (s : Str) (c : Char) : Bool := s.any (fun x => x = c)

/-- Rust `partial.split('=').last().unwrap_or("")`: the substring after the
last `=`, or the whole string when no `=` occurs. -/
def afterLastEq (s : Str) : Str :=
  (s.reverse.takeWhile (fun c => c ≠ '=')).reverse

-- lsp_types data, restricted to the constructors this server uses.

inductive CompletionItemKind where
  | property | value | enumMember | color | keyword | function | snippet
deriving DecidableEq, Repr

inductive InsertTextFormat where
  | plainText | snippet
deriving DecidableEq, Repr

inductive CompletionItemTag where
  | deprecated
deriving DecidableEq, Repr

inductive MarkupKind where
  | markdown
deriving DecidableEq, Repr

/-- lsp_types `Documentation` (markup content or plain string). -/
inductive Doc where
  | markup (kind : MarkupKind) (value : Str)
  | plain (value : Str)
deriving DecidableEq, Repr

/-- lsp_types `CompletionItem`, restricted to the fields this server sets
(`doc` embeds the `documentation` field). -/
structure CompletionItem where
  label : Str
  kind : Option CompletionItemKind := none
  detail : Option Str := none
  doc : Option Doc := none
  insertText : Option Str := none
  insertTextFormat : Option InsertTextFormat := none
  tags : Option (List CompletionItemTag) := none
  sortText : Option Str := none
deriving DecidableEq, Repr

-- The schema model (struct ConfigOption, TypeDefinitions, GhosttySchema).

structure ConfigOption where
  optionType : Str
  description : Str
  repeatable : Bool := false
  deprecated : Bool := false
  enumValues : Option (List Str) := none
  examples : Option (List Str) := none
  platforms : Option (List Str) := none
deriving DecidableEq, Repr

structure KeybindType where
  prefixes : Option (List Str) := none
  modifiers : Option (List Str) := none
  actions : Option (List Str) := none
deriving DecidableEq, Repr

structure ColorType where
  namedValues : Option (List Str) := none
deriving DecidableEq, Repr

structure TypeDefinitions where
  keybind : Option KeybindType := none
  color : Option ColorType := none
deriving DecidableEq, Repr

/-- The schema: the `options` HashMap is modelled as an association list
(whose keys are unique in any schema produced by deserialization). -/
structure GhosttySchema where
  options : List (Str × ConfigOption)
  types : Option TypeDefinitions := none
deriving DecidableEq, Repr

/-- `HashMap::get` on the options map. -/
def lookupOpt : List (Str × ConfigOption) → Str → Option ConfigOption
  | [], _ => none
  | (k, v) :: rest, key => if k = key then some v else lookupOpt rest key

-- format_type_detail

def formatTypeDetail (opt : ConfigOption) : Str :=
  let parts := [opt.optionType]
  let parts := if opt.repeatable then parts ++ [toChars "repeatable"] else parts
  let parts :=
    match opt.platforms with
    | some platforms =>
        parts ++ [toChars "[" ++ List.intercalate (toChars ", ") platforms ++ toChars "]"]
    | none => parts
  List.intercalate (toChars " | ") parts

-- format_key_documentation (named formatKeyDoc here)

def formatKeyDoc (key : Str) (opt : ConfigOption) : Str :=
  let d := opt.description
  let d :=
    match opt.examples with
    | some examples =>
        d ++ toChars "\n\n**Examples:**\n" ++
          (examples.take 3).foldl
            (fun acc ex => acc ++ toChars "- `" ++ key ++ toChars " = " ++ ex ++ toChars "`\n") []
    | none => d
  match opt.enumValues with
  | some enumValues =>
      d ++ toChars "\n\n**Valid values:** " ++ List.intercalate (toChars ", ") enumValues
  | none => d

/-- The completion item built for one schema option inside
`get_key_completions` (the body of the `map` closure). -/
def keyItem (key : Str) (opt : ConfigOption) : CompletionItem :=
  let base : CompletionItem :=
    { label := key
      kind := some .property
      detail := some (formatTypeDetail opt)
      doc := some (Doc.markup .markdown (formatKeyDoc key opt))
      insertText := some (key ++ toChars " = ")
      insertTextFormat := some .plainText }
  if opt.deprecated then
    { base with tags := some [.deprecated], sortText := some (toChars "z_" ++ key) }
  else
    base

-- get_key_completions

def getKeyCompletions (schema : GhosttySchema) (part : Str) : List CompletionItem :=
  let partLower := lower part
  (schema.options.filter (fun kv => part.isEmpty || containsStr (lower kv.1) partLower)).map
    (fun kv => keyItem kv.1 kv.2)

-- simple_completion

def simpleCompletion (label : Str) (kind : CompletionItemKind) : CompletionItem :=
  { label := label, kind := some kind }

-- get_boolean_completions

def getBooleanCompletions (part : Str) : List CompletionItem :=
  ([toChars "true", toChars "false"].filter
      (fun v => part.isEmpty || containsStr v part)).map
    (fun v => simpleCompletion v .value)

-- get_enum_completions

def getEnumCompletions (opt : ConfigOption) (part : Str) : List CompletionItem :=
  match opt.enumValues with
  | some vals =>
      (vals.filter (fun v => part.isEmpty || containsStr (lower v) part)).map
        (fun v => simpleCompletion v .enumMember)
  | none => []

-- get_colour_completions

def getColourCompletions (schema : GhosttySchema) (part : Str) : List CompletionItem :=
  let named :=
    match schema.types with
    | some types =>
        match types.color with
        | some colorType =>
            match colorType.namedValues with
            | some names =>
                (names.filter (fun name => part.isEmpty || containsStr (lower name) part)).map
                  (fun name => simpleCompletion name .color)
            | none => []
        | none => []
    | none => []
  if part.isEmpty || containsStr (toChars "#") part || part.head? = some '#' then
    named ++
      [{ simpleCompletion (toChars "#RRGGBB") .color with
          detail := some (toChars "Hex colour"), insertText := some (toChars "#") }]
  else
    named

-- get_keybind_completions, split into its three candidate groups
-- (the source pushes the groups into one vector in this order).

def keybindPfxItems (kb : KeybindType) (part : Str) : List CompletionItem :=
  match kb.prefixes with
  | some ps =>
      (ps.filter (fun p => part.isEmpty || containsStr (lower (p ++ toChars ":")) part)).map
        (fun p =>
          { simpleCompletion (p ++ toChars ":") .keyword with
              detail := some (toChars "Keybind prefix") })
  | none => []

def keybindModItems (kb : KeybindType) (part : Str) : List CompletionItem :=
  match kb.modifiers with
  | some ms =>
      (ms.filter (fun m => part.isEmpty || containsStr (lower (m ++ toChars "+")) part)).map
        (fun m =>
          { simpleCompletion (m ++ toChars "+") .keyword with
              detail := some (toChars "Modifier key") })
  | none => []

def keybindActionItems (kb : KeybindType) (part : Str) : List CompletionItem :=
  if containsChar part '=' || part.isEmpty then
    match kb.actions with
    | some actions =>
        let afterEq := trim (afterLastEq part)
        (actions.filter (fun a => afterEq.isEmpty || containsStr (lower a) afterEq)).map
          (fun a =>
            { simpleCompletion a .function with detail := some (toChars "Keybind action") })
    | none => []
  else
    []

def getKeybindCompletions (schema : GhosttySchema) (part : Str) : List CompletionItem :=
  match schema.types with
  | some types =>
      match types.keybind with
      | some kb => keybindPfxItems kb part ++ keybindModItems kb part ++ keybindActionItems kb part
      | none => []
  | none => []

-- get_theme_completions

def themeNames : List Str :=
  [toChars "auto", toChars "Catppuccin Mocha", toChars "Catppuccin Macchiato",
   toChars "Catppuccin Frappe", toChars "Catppuccin Latte", toChars "Dracula",
   toChars "Gruvbox Dark", toChars "Gruvbox Light", toChars "Nord", toChars "One Dark",
   toChars "Solarized Dark", toChars "Solarized Light", toChars "Tokyo Night",
   toChars "Tokyo Night Storm", toChars "Tomorrow Night"]

/-- The light/dark combo snippet item pushed by `get_theme_completions`
(`\x7b` and `\x7d` denote the literal braces of the snippet placeholders). -/
def themeComboItem : CompletionItem :=
  { label := toChars "light:...,dark:..."
    kind := some .snippet
    detail := some (toChars "Light/dark theme combination")
    insertText := some (toChars "light:$\x7b1:Catppuccin Latte\x7d,dark:$\x7b2:Catppuccin Mocha\x7d")
    insertTextFormat := some .snippet
    doc := some (Doc.plain (toChars "Use different themes for light and dark mode")) }

def getThemeCompletions (part : Str) : List CompletionItem :=
  let items :=
    (themeNames.filter (fun t => part.isEmpty || containsStr (lower t) part)).map
      (fun t => { simpleCompletion t .value with detail := some (toChars "Built-in theme") })
  if part.isEmpty || containsStr (toChars "light:") part then
    items ++ [themeComboItem]
  else
    items

-- get_example_completions

def getExampleCompletions (opt : ConfigOption) (part : Str) : List CompletionItem :=
  match opt.examples with
  | some examples =>
      (examples.filter (fun ex => part.isEmpty || containsStr (lower ex) part)).map
        (fun ex => { simpleCompletion ex .value with detail := some (toChars "Example value") })
  | none => []

-- get_value_completions

def getValueCompletions (schema : GhosttySchema) (key part : Str) : List CompletionItem :=
  match lookupOpt schema.options key with
  | none => []
  | some opt =>
      let partLower := trim (lower part)
      if opt.optionType = toChars "boolean" then getBooleanCompletions partLower
      else if opt.optionType = toChars "enum" then getEnumCompletions opt partLower
      else if opt.optionType = toChars "color" then getColourCompletions schema partLower
      else if opt.optionType = toChars "keybind" then getKeybindCompletions schema partLower
      else if opt.optionType = toChars "theme" then getThemeCompletions partLower
      else getExampleCompletions opt partLower

-- parse_line_context

inductive LineContext where
  | comment
  | key (part : Str)
  | value (key : Str) (part : Str)
deriving DecidableEq, Repr

/-- `parse_line_context`.  Returns `none` exactly where the Rust code
panics: in the value branch the slice `line[eq_pos + 1..char_pos]` is taken
without clamping `char_pos` to the line length (unlike the no-equals
branch, which clamps with `.min(line.len())`). -/
def parseLineContext (line : Str) (character : Nat) : Option LineContext :=
  let charPos := character
  let trimmed := trimStart line
  if trimmed.head? = some '#' then
    some .comment
  else
    match line.findIdx? (fun c => c = '=') with
    | some eqPos =>
        if charPos ≤ eqPos then
          some (.key (trim (line.take charPos)))
        else if charPos ≤ line.length then
          some (.value (trim (line.take eqPos))
            (trimStart ((line.drop (eqPos + 1)).take (charPos - (eqPos + 1)))))
        else
          none
    | none => some (.key (trim (line.take (min charPos line.length))))

-- The document store (RwLock<HashMap<Url, String>>), modelled as an
-- association list with HashMap insert/remove/get semantics.

abbrev Uri := Str

abbrev DocStore := List (Uri × Str)

def docLookup : DocStore → Uri → Option Str
  | [], _ => none
  | (k, v) :: rest, uri => if k = uri then some v else docLookup rest uri

def docInsert (docs : DocStore) (uri : Uri) (text : Str) : DocStore :=
  (uri, text) :: docs.filter (fun kv => kv.1 ≠ uri)

def docRemove (docs : DocStore) (uri : Uri) : DocStore :=
  docs.filter (fun kv => kv.1 ≠ uri)

/-- `did_open`: unconditional insert of the full text. -/
def didOpen (docs : DocStore) (uri : Uri) (text : Str) : DocStore :=
  docInsert docs uri text

/-- `did_change`: only the last entry of the change batch is applied. -/
def didChange (docs : DocStore) (uri : Uri) (contentChanges : List Str) : DocStore :=
  match contentChanges.getLast? with
  | some text => docInsert docs uri text
  | none => docs

/-- `did_close`: remove the entry. -/
def didClose (docs : DocStore) (uri : Uri) : DocStore :=
  docRemove docs uri

/-- The read a completion request performs on the store. -/
def snapshot (docs : DocStore) (uri : Uri) : Option Str :=
  docLookup docs uri

-- content.lines(): split on newline, drop a trailing empty segment,
-- strip a trailing carriage return from each line.

def splitOnChar (c : Char) : Str → List Str
  | [] => [[]]
  | x :: xs =>
      let rest := splitOnChar c xs
      if x = c then [] :: rest
      else
        match rest with
        | [] => [[x]]
        | y :: ys => (x :: y) :: ys

def stripCr (l : Str) : Str :=
  if l.getLast? = some '\r' then l.dropLast else l

def linesOf (s : Str) : List Str :=
  let parts := splitOnChar '\n' s
  let parts := if parts.getLast? = some [] then parts.dropLast else parts
  parts.map stripCr

-- The completion handler.

/-- Result of a completion request: the returned item array plus the
diagnostic messages logged while serving it. -/
structure CompletionOutcome where
  items : List CompletionItem
  logs : List Str
deriving DecidableEq, Repr

def noContentMsg (uri : Uri) : Str :=
  toChars "No document content for " ++ uri

/-- The `completion` handler.  `none` marks a panic propagated from
`parseLineContext`. -/
def completion (schema : GhosttySchema) (docs : DocStore) (uri : Uri)
    (lineNum character : Nat) : Option CompletionOutcome :=
  match snapshot docs uri with
  | none =>
      some { items := getKeyCompletions schema [], logs := [noContentMsg uri] }
  | some content =>
      let ls := linesOf content
      if ls.length ≤ lineNum then
        some { items := getKeyCompletions schema [], logs := [] }
      else
        let line := ls.getD lineNum []
        match parseLineContext line character with
        | none => none
        | some ctx =>
            some
              { items :=
                  match ctx with
                  | .comment => []
                  | .key p => getKeyCompletions schema p
                  | .value key p => getValueCompletions schema key p
                logs := [] }

-- Default ordering of completion items: explicit sort key when present,
-- otherwise the label, compared lexicographically.

def sortKey (item : CompletionItem) : Str :=
  item.sortText.getD item.label

def lexLt : Str → Str → Bool
  | [], [] => false
  | [], _ :: _ => true
  | _ :: _, [] => false
  | a :: as, b :: bs => if a < b then true else if b < a then false else lexLt as bs

-- Sample schemas and options used to instantiate the universally
-- quantified theorems below on concrete inputs.

def exOptPlain : ConfigOption :=
  { optionType := toChars "string", description := toChars "an option" }

def exOptDep : ConfigOption :=
  { optionType := toChars "string", description := toChars "an old option", deprecated := true }

/-- Schema with a deprecated option `a` and a non-deprecated option `zz`:
the deprecated sort key `z_a` compares before the label `zz`. -/
def exSchemaZ : GhosttySchema :=
  { options := [(toChars "a", exOptDep), (toChars "zz", exOptPlain)] }

def exSchemaAB : GhosttySchema :=
  { options := [(toChars "a", exOptPlain), (toChars "b", exOptDep)] }

def exOptBool : ConfigOption :=
  { optionType := toChars "boolean", description := toChars "a flag" }

def exSchemaBool : GhosttySchema :=
  { options := [(toChars "flag", exOptBool)] }

def exOptKeybind : ConfigOption :=
  { optionType := toChars "keybind", description := toChars "keybind option" }

/-- Schema with exactly the given keybind type definitions. -/
def kbSchema (kt : KeybindType) : GhosttySchema :=
  { options := [(toChars "keybind", exOptKeybind)]
    types := some { keybind := some kt } }

def kt0 : KeybindType :=
  { prefixes := some [toChars "global"], modifiers := some [toChars "ctrl"],
    actions := some [toChars "reload_config"] }

-- Helper lemmas.

theorem docLookup_filter_ne (docs : DocStore) (uri : Uri) :
    docLookup (docs.filter (fun kv => kv.1 ≠ uri)) uri = none := by
  induction docs with
  | nil => rfl
  | cons kv rest ih =>
      obtain ⟨k, v⟩ := kv
      by_cases h : k = uri
      · simpa [List.filter_cons, h] using ih
      · simpa [List.filter_cons, h, docLookup] using ih

theorem getKeyCompletions_empty (schema : GhosttySchema) :
    getKeyCompletions schema [] = schema.options.map (fun kv => keyItem kv.1 kv.2) := by
  simp [getKeyCompletions]

theorem keyItem_label (k : Str) (opt : ConfigOption) : (keyItem k opt).label = k := by
  cases h : opt.deprecated <;> simp [keyItem, h]

theorem keyItem_deprecated_fields (k : Str) (opt : ConfigOption) (h : opt.deprecated = true) :
    (keyItem k opt).tags = some [CompletionItemTag.deprecated] ∧
    (keyItem k opt).sortText = some (toChars "z_" ++ k) := by
  simp [keyItem, h]

theorem keyItem_plain_fields (k : Str) (opt : ConfigOption) (h : opt.deprecated = false) :
    (keyItem k opt).tags = none ∧ (keyItem k opt).sortText = none := by
  simp [keyItem, h]

theorem lexLt_append_right (a s t : Str) (h : lexLt a s = true) : lexLt a (s ++ t) = true := by
  induction a generalizing s with
  | nil =>
      cases s with
      | nil => simp [lexLt] at h
      | cons b bs => simp [lexLt]
  | cons x xs ih =>
      cases s with
      | nil => simp [lexLt] at h
      | cons b bs =>
          simp only [List.cons_append, lexLt] at h ⊢
          by_cases h1 : x < b
          · simp [h1]
          · by_cases h2 : b < x
            · rw [if_neg h1, if_pos h2] at h; cases h
            · rw [if_neg h1, if_neg h2] at h ⊢
              exact ih bs h

theorem mem_getKeyCompletions (schema : GhosttySchema) (part : Str) (item : CompletionItem)
    (h : item ∈ getKeyCompletions schema part) :
    ∃ kv, kv ∈ schema.options ∧ item = keyItem kv.1 kv.2 := by
  simp only [getKeyCompletions] at h
  rcases List.mem_map.mp h with ⟨kv, hkv, rfl⟩
  exact ⟨kv, List.mem_of_mem_filter hkv, rfl⟩

theorem themeComboItem_not_mem_name_items (part : Str) :
    themeComboItem ∉ (themeNames.filter (fun t => part.isEmpty || containsStr (lower t) part)).map
      (fun t => { simpleCompletion t CompletionItemKind.value with
          detail := some (toChars "Built-in theme") }) := by
  intro h
  rcases List.mem_map.mp h with ⟨t, _, ht⟩
  have hk : themeComboItem.kind = some CompletionItemKind.value := by
    rw [← ht]
    rfl
  exact absurd hk (by decide)

theorem toLower_of_whitespace (c : Char) (h : c.isWhitespace = true) : c.toLower = c := by
  simp [Char.isWhitespace] at h
  rcases h with ((h | h) | h) | h <;> subst h <;> decide

theorem lower_of_ws (ws : Str) (h : ∀ c ∈ ws, c.isWhitespace = true) : lower ws = ws := by
  induction ws with
  | nil => rfl
  | cons c cs ih =>
      simp only [lower, List.map_cons]
      rw [toLower_of_whitespace c (h c (List.mem_cons_self c cs))]
      have := ih (fun d hd => h d (List.mem_cons_of_mem _ hd))
      simp only [lower] at this
      rw [this]

theorem trimStart_ws_append (ws x : Str) (h : ∀ c ∈ ws, c.isWhitespace = true) :
    trimStart (ws ++ x) = trimStart x := by
  induction ws with
  | nil => rfl
  | cons c cs ih =>
      have hc := h c (List.mem_cons_self c cs)
      simp only [trimStart, List.cons_append, List.dropWhile_cons, hc, if_true]
      exact ih (fun d hd => h d (List.mem_cons_of_mem _ hd))

theorem trimEnd_append_ws (x ws : Str) (h : ∀ c ∈ ws, c.isWhitespace = true) :
    trimEnd (x ++ ws) = trimEnd x := by
  show ((x ++ ws).reverse.dropWhile Char.isWhitespace).reverse = _
  rw [List.reverse_append]
  have := trimStart_ws_append ws.reverse x.reverse (fun c hc => h c (List.mem_reverse.mp hc))
  simp only [trimStart] at this
  rw [this]
  rfl

theorem trim_ws_append (ws x : Str) (h : ∀ c ∈ ws, c.isWhitespace = true) :
    trim (ws ++ x) = trim x := by
  unfold trim
  rw [trimStart_ws_append ws x h]

theorem trim_append_ws (x ws : Str) (h : ∀ c ∈ ws, c.isWhitespace = true) :
    trim (x ++ ws) = trim x := by
  unfold trim trimStart
  rw [List.dropWhile_append]
  by_cases hx : (x.dropWhile Char.isWhitespace).isEmpty
  · rw [if_pos hx]
    have hws : ws.dropWhile Char.isWhitespace = [] := by
      rw [List.dropWhile_eq_nil_iff]
      exact fun a ha => h a ha
    have hx' : x.dropWhile Char.isWhitespace = [] := by
      rwa [List.isEmpty_iff] at hx
    rw [hws, hx']
  · rw [if_neg hx]
    exact trimEnd_append_ws _ ws h

theorem getValueCompletions_congr (schema : GhosttySchema) (key p q : Str)
    (h : trim (lower p) = trim (lower q)) :
    getValueCompletions schema key p = getValueCompletions schema key q := by
  unfold getValueCompletions
  rw [h]

theorem getKeybindCompletions_kbSchema (kt : KeybindType) (part : Str) :
    getKeybindCompletions (kbSchema kt) part =
      keybindPfxItems kt part ++ keybindModItems kt part ++ keybindActionItems kt part := rfl

theorem mem_keybindPfxItems_detail (kt : KeybindType) (part : Str) (item : CompletionItem)
    (h : item ∈ keybindPfxItems kt part) : item.detail = some (toChars "Keybind prefix") := by
  unfold keybindPfxItems at h
  cases hp : kt.prefixes with
  | none => rw [hp] at h; cases h
  | some ps =>
      simp only [hp] at h
      rcases List.mem_map.mp h with ⟨p, _, rfl⟩
      rfl

theorem mem_keybindModItems_detail (kt : KeybindType) (part : Str) (item : CompletionItem)
    (h : item ∈ keybindModItems kt part) : item.detail = some (toChars "Modifier key") := by
  unfold keybindModItems at h
  cases hm : kt.modifiers with
  | none => rw [hm] at h; cases h
  | some ms =>
      simp only [hm] at h
      rcases List.mem_map.mp h with ⟨m, _, rfl⟩
      rfl

theorem mem_keybindActionItems_detail (kt : KeybindType) (part : Str) (item : CompletionItem)
    (h : item ∈ keybindActionItems kt part) : item.detail = some (toChars "Keybind action") := by
  unfold keybindActionItems at h
  by_cases hc : (containsChar part '=' || part.isEmpty) = true
  · rw [if_pos hc] at h
    cases ha : kt.actions with
    | none => rw [ha] at h; cases h
    | some acts =>
        simp only [ha] at h
        rcases List.mem_map.mp h with ⟨a, _, rfl⟩
        rfl
  · rw [if_neg hc] at h; cases h

theorem keybindActionItems_eq_nil (kt : KeybindType) (part : Str)
    (h1 : containsChar part '=' = false) (h2 : part.isEmpty = false) :
    keybindActionItems kt part = [] := by
  unfold keybindActionItems
  rw [h1, h2]
  rfl

theorem keybindActionItems_rel (kt : KeybindType) :
    keybindActionItems kt (toChars "a = rel") =
      ((kt.actions.getD []).filter (fun a => containsStr (lower a) (toChars "rel"))).map
        (fun a => { simpleCompletion a CompletionItemKind.function with
            detail := some (toChars "Keybind action") }) := by
  have hcond : (containsChar (toChars "a = rel") '=' || (toChars "a = rel").isEmpty) = true := by
    decide
  have he : trim (afterLastEq (toChars "a = rel")) = toChars "rel" := by decide
  have hne : (toChars "rel").isEmpty = false := by decide
  cases ha : kt.actions with
  | none => simp [keybindActionItems, ha, hcond]
  | some acts =>
      simp only [keybindActionItems, ha, hcond, if_true, he, hne, Bool.false_or, Option.getD_some]

-- Claim theorems.

/-- Claim C1, counterexample: on the line `"font-size = 12"` with cursor
offset 13, the classifier does NOT return Value(key = "font-size",
partial = "12") as the claim states: the slice `line[11..13]` covers only
`" 1"`, so the partial is `"1"`. -/
theorem c1_counterexample :
    parseLineContext (toChars "font-size = 12") 13 ≠
      some (.value (toChars "font-size") (toChars "12")) := by decide

/-- Claim C1 (corrected): for the line `"font-size = 12"`, cursor offset 4
classifies as Key with partial `"font"`; cursor offset 13 classifies as
Value with key `"font-size"` and partial `"1"`; the partial `"12"` is
obtained at cursor offset 14 (the end of the line). -/
theorem c1_amended :
    parseLineContext (toChars "font-size = 12") 4 = some (.key (toChars "font")) ∧
    parseLineContext (toChars "font-size = 12") 13 =
      some (.value (toChars "font-size") (toChars "1")) ∧
    parseLineContext (toChars "font-size = 12") 14 =
      some (.value (toChars "font-size") (toChars "12")) := by decide

/-- Claim C2: the classifier is NOT total.  On the line `"a=b"` with cursor
offset 10 the Rust code takes the slice `line[eq_pos + 1..char_pos]` =
`line[2..10]` past the end of the 3-byte line and panics; the embedding
returns `none` (the panic marker) there.  The no-equals branch clamps the
offset with `.min(line.len())`, so the missing clamp in the equals branch
is a slip against the documented totality. -/
theorem c2_classifier_out_of_range :
    parseLineContext (toChars "a=b") 10 = none := by decide

/-- Claim C3, counterexample: in the schema `exSchemaZ` (deprecated option
`a`, non-deprecated option `zz`), the deprecated item's sort key `z_a`
orders strictly BEFORE the non-deprecated item's default sort key `zz`,
so deprecated items do not sort after all non-deprecated items. -/
theorem c3_counterexample :
    ((getKeyCompletions exSchemaZ []).any (fun d =>
      d.tags = some [CompletionItemTag.deprecated] &&
        (getKeyCompletions exSchemaZ []).any (fun n =>
          n.tags = none && lexLt (sortKey d) (sortKey n)))) = true := by decide

/-- Claim C3 (corrected): every deprecated option's item carries the
deprecated tag and the explicit sort key `"z_" ++ key`; under the default
ordering (explicit sort key when present, otherwise label) a deprecated
item orders strictly after every non-deprecated item whose key is
lexicographically less than the string `"z_"` — but not necessarily after
non-deprecated keys at or beyond `"z_"`, such as `"zz"`. -/
theorem c3_deprecated_sorting_amended (schema : GhosttySchema) (part : Str) :
    (∀ k opt, opt.deprecated = true →
        (keyItem k opt).tags = some [CompletionItemTag.deprecated] ∧
        (keyItem k opt).sortText = some (toChars "z_" ++ k)) ∧
    (∀ d ∈ getKeyCompletions schema part, ∀ n ∈ getKeyCompletions schema part,
        d.tags = some [CompletionItemTag.deprecated] → n.tags = none →
        lexLt n.label (toChars "z_") = true →
        lexLt (sortKey n) (sortKey d) = true) := by
  refine ⟨fun k opt h => keyItem_deprecated_fields k opt h, ?_⟩
  intro d hd n hn hdtags hntags hlt
  rcases mem_getKeyCompletions schema part d hd with ⟨⟨k1, o1⟩, _, rfl⟩
  rcases mem_getKeyCompletions schema part n hn with ⟨⟨k2, o2⟩, _, rfl⟩
  have ho1 : o1.deprecated = true := by
    cases h1 : o1.deprecated
    · rw [(keyItem_plain_fields k1 o1 h1).1] at hdtags; cases hdtags
    · rfl
  have ho2 : o2.deprecated = false := by
    cases h2 : o2.deprecated
    · rfl
    · rw [(keyItem_deprecated_fields k2 o2 h2).1] at hntags; cases hntags
  have skd : sortKey (keyItem k1 o1) = toChars "z_" ++ k1 := by
    simp [sortKey, (keyItem_deprecated_fields k1 o1 ho1).2]
  have skn : sortKey (keyItem k2 o2) = k2 := by
    simp [sortKey, (keyItem_plain_fields k2 o2 ho2).2, keyItem_label]
  rw [skn, skd]
  rw [keyItem_label] at hlt
  exact lexLt_append_right k2 (toChars "z_") k1 hlt

/-- Witness for C3 at a concrete schema: the non-deprecated key `a` sorts
strictly before the deprecated key `b`. -/
theorem c3_witness :
    lexLt (sortKey (keyItem (toChars "a") exOptPlain))
      (sortKey (keyItem (toChars "b") exOptDep)) = true :=
  (c3_deprecated_sorting_amended exSchemaAB []).2
    (keyItem (toChars "b") exOptDep) (by decide)
    (keyItem (toChars "a") exOptPlain) (by decide)
    (by decide) (by decide) (by decide)

/-- Claim C4, counterexample: the partial `"ight"` is non-empty and not a
prefix of `"light:"`, yet the snippet item labeled `light:...,dark:...`
is included (the code tests substring containment, not prefixhood). -/
theorem c4_counterexample :
    ((getThemeCompletions (toChars "ight")).any (fun item =>
        item.label = toChars "light:...,dark:...")) = true ∧
    (toChars "ight").isEmpty = false ∧
    (toChars "ight").isPrefixOf (toChars "light:") = false := by decide

/-- Claim C4 (corrected): the snippet item labeled `light:...,dark:...` is
included exactly when the partial is empty or is a SUBSTRING of
`"light:"`; when included, its insertion text is flagged as a snippet
template and contains the ordered placeholders 1 and 2 with defaults
`Catppuccin Latte` and `Catppuccin Mocha` (braces written `\x7b`/`\x7d`). -/
theorem c4_theme_snippet_amended (part : Str) :
    (themeComboItem ∈ getThemeCompletions part ↔
      (part.isEmpty || containsStr (toChars "light:") part) = true) ∧
    themeComboItem.insertTextFormat = some InsertTextFormat.snippet ∧
    themeComboItem.insertText =
      some (toChars "light:$\x7b1:" ++ toChars "Catppuccin Latte" ++ toChars "\x7d,dark:$\x7b2:" ++
        toChars "Catppuccin Mocha" ++ toChars "\x7d") := by
  refine ⟨?_, by decide, by decide⟩
  constructor
  · intro h
    simp only [getThemeCompletions] at h
    by_cases hc : (part.isEmpty || containsStr (toChars "light:") part) = true
    · exact hc
    · rw [if_neg hc] at h
      exact absurd h (themeComboItem_not_mem_name_items part)
  · intro hc
    simp only [getThemeCompletions]
    rw [if_pos hc]
    exact List.mem_append_right _ (List.mem_singleton.mpr rfl)

/-- Witness for C4 at the concrete partial `"light"`. -/
theorem c4_witness :
    themeComboItem ∈ getThemeCompletions (toChars "light") :=
  (c4_theme_snippet_amended (toChars "light")).1.mpr (by decide)

/-- Claim C5: key completion with an empty partial returns exactly one item
per option (the list length equals the option count); for a non-empty
partial the items are exactly those options whose lower-cased key contains
the lower-cased partial; and every returned item also occurs in the
empty-partial result. -/
theorem c5_key_completion_cardinality (schema : GhosttySchema) (part : Str) :
    (getKeyCompletions schema []).length = schema.options.length ∧
    (part.isEmpty = false →
      getKeyCompletions schema part =
        (schema.options.filter (fun kv => containsStr (lower kv.1) (lower part))).map
          (fun kv => keyItem kv.1 kv.2)) ∧
    (∀ item ∈ getKeyCompletions schema part, item ∈ getKeyCompletions schema []) := by
  refine ⟨?_, ?_, ?_⟩
  · rw [getKeyCompletions_empty]; exact List.length_map ..
  · intro h; simp [getKeyCompletions, h]
  · intro item hmem
    rw [getKeyCompletions_empty]
    simp only [getKeyCompletions] at hmem
    rcases List.mem_map.mp hmem with ⟨kv, hkv, rfl⟩
    exact List.mem_map_of_mem _ (List.mem_of_mem_filter hkv)

/-- Witness for C5 at a concrete schema and the partial `"zz"`. -/
theorem c5_witness :
    getKeyCompletions exSchemaZ (toChars "zz") =
      (exSchemaZ.options.filter (fun kv => containsStr (lower kv.1) (lower (toChars "zz")))).map
        (fun kv => keyItem kv.1 kv.2) :=
  (c5_key_completion_cardinality exSchemaZ (toChars "zz")).2.1 (by decide)

/-- Claim C6: document-store round trip — after open(id, T) the snapshot of
id is T; after change(id, batch) with a non-empty batch whose last entry is
T2 the snapshot is T2; after close(id) the snapshot is absent. -/
theorem c6_document_store_roundtrip (docs : DocStore) (uri : Uri) (t t2 : Str)
    (changes : List Str) (hlast : changes.getLast? = some t2) :
    snapshot (didOpen docs uri t) uri = some t ∧
    snapshot (didChange docs uri changes) uri = some t2 ∧
    snapshot (didClose docs uri) uri = none := by
  refine ⟨?_, ?_, ?_⟩
  · simp [snapshot, didOpen, docInsert, docLookup]
  · simp [snapshot, didChange, hlast, docInsert, docLookup]
  · simpa [snapshot, didClose, docRemove] using docLookup_filter_ne docs uri

/-- Witness for C6: a concrete change batch whose last entry wins. -/
theorem c6_witness :
    snapshot (didChange [] (toChars "file:///c") [toChars "T", toChars "T2"])
      (toChars "file:///c") = some (toChars "T2") :=
  (c6_document_store_roundtrip [] (toChars "file:///c") (toChars "T") (toChars "T2")
    [toChars "T", toChars "T2"] (by decide)).2.1

/-- Claim C7: a completion request for a document id with no stored text
returns a successful response equal to the full unfiltered key-completion
set (empty partial), and a diagnostic log entry is emitted (the log list
is non-empty). -/
theorem c7_unknown_document_fallback (schema : GhosttySchema) (docs : DocStore) (uri : Uri)
    (lineNum character : Nat) (h : snapshot docs uri = none) :
    completion schema docs uri lineNum character =
      some { items := getKeyCompletions schema [], logs := [noContentMsg uri] } ∧
    [noContentMsg uri] ≠ ([] : List Str) := by
  refine ⟨?_, by simp⟩
  simp [completion, h]

/-- Witness for C7 on an empty document store. -/
theorem c7_witness :
    completion { options := [] } [] (toChars "file:///u") 0 0 =
      some { items := getKeyCompletions { options := [] } [],
             logs := [noContentMsg (toChars "file:///u")] } :=
  (c7_unknown_document_fallback { options := [] } [] (toChars "file:///u") 0 0 rfl).1

/-- Claim C8: keybind value completion produces action candidates only when
the partial is empty or contains `=`; the partial `"global:ctrl+shift+"`
(no `=`) yields only prefix- and modifier-derived candidates and no action
candidates; and for the partial `"a = rel"` the action candidates are
exactly the actions whose lower-cased name contains `"rel"`. -/
theorem c8_keybind_action_gating (kt : KeybindType) (part : Str) :
    (containsChar part '=' = false → part.isEmpty = false →
      ∀ item ∈ getKeybindCompletions (kbSchema kt) part,
        item.detail ≠ some (toChars "Keybind action")) ∧
    (∀ item ∈ getKeybindCompletions (kbSchema kt) (toChars "global:ctrl+shift+"),
        item.detail = some (toChars "Keybind prefix") ∨
        item.detail = some (toChars "Modifier key")) ∧
    ((getKeybindCompletions (kbSchema kt) (toChars "a = rel")).filter
        (fun item => item.detail = some (toChars "Keybind action")) =
      ((kt.actions.getD []).filter (fun a => containsStr (lower a) (toChars "rel"))).map
        (fun a => { simpleCompletion a CompletionItemKind.function with
            detail := some (toChars "Keybind action") })) := by
  refine ⟨?_, ?_, ?_⟩
  · intro h1 h2 item hmem
    rw [getKeybindCompletions_kbSchema, keybindActionItems_eq_nil kt part h1 h2,
      List.append_nil] at hmem
    rcases List.mem_append.mp hmem with hm | hm
    · rw [mem_keybindPfxItems_detail kt part item hm]; decide
    · rw [mem_keybindModItems_detail kt part item hm]; decide
  · intro item hmem
    have h1 : containsChar (toChars "global:ctrl+shift+") '=' = false := by decide
    have h2 : (toChars "global:ctrl+shift+").isEmpty = false := by decide
    rw [getKeybindCompletions_kbSchema, keybindActionItems_eq_nil kt _ h1 h2,
      List.append_nil] at hmem
    rcases List.mem_append.mp hmem with hm | hm
    · exact Or.inl (mem_keybindPfxItems_detail kt _ item hm)
    · exact Or.inr (mem_keybindModItems_detail kt _ item hm)
  · rw [getKeybindCompletions_kbSchema, List.filter_append, List.filter_append]
    have hp : (keybindPfxItems kt (toChars "a = rel")).filter
        (fun item => item.detail = some (toChars "Keybind action")) = [] := by
      rw [List.filter_eq_nil_iff]
      intro a ha
      have hd := mem_keybindPfxItems_detail kt _ a ha
      rw [hd]
      decide
    have hm : (keybindModItems kt (toChars "a = rel")).filter
        (fun item => item.detail = some (toChars "Keybind action")) = [] := by
      rw [List.filter_eq_nil_iff]
      intro a ha
      have hd := mem_keybindModItems_detail kt _ a ha
      rw [hd]
      decide
    have hall : (keybindActionItems kt (toChars "a = rel")).filter
        (fun item => item.detail = some (toChars "Keybind action")) =
        keybindActionItems kt (toChars "a = rel") := by
      rw [List.filter_eq_self]
      intro a ha
      have hd := mem_keybindActionItems_detail kt _ a ha
      rw [hd]
      decide
    rw [hp, hm, hall, List.nil_append, List.nil_append]
    exact keybindActionItems_rel kt

/-- Witness for C8: with prefixes {global}, modifiers {ctrl} and actions
{reload_config}, the partial `"ctrl"` yields the modifier item, whose
detail is not the action detail. -/
theorem c8_witness :
    ({ simpleCompletion (toChars "ctrl" ++ toChars "+") CompletionItemKind.keyword with
        detail := some (toChars "Modifier key") } : CompletionItem).detail ≠
      some (toChars "Keybind action") :=
  (c8_keybind_action_gating kt0 (toChars "ctrl")).1 (by decide) (by decide) _ (by decide)

/-- Claim C9: value completion lower-cases the partial and trims it before
dispatching, so its result is invariant under changing the partial's
letter case (same lower-casing) and under surrounding the partial with
whitespace. -/
theorem c9_value_partial_invariance (schema : GhosttySchema) (key p p2 ws1 ws2 : Str)
    (hcase : lower p2 = lower p)
    (hws1 : ∀ c ∈ ws1, c.isWhitespace = true) (hws2 : ∀ c ∈ ws2, c.isWhitespace = true) :
    getValueCompletions schema key p2 = getValueCompletions schema key p ∧
    getValueCompletions schema key (ws1 ++ p ++ ws2) = getValueCompletions schema key p := by
  constructor
  · exact getValueCompletions_congr schema key p2 p (by rw [hcase])
  · apply getValueCompletions_congr
    have e1 : lower (ws1 ++ p ++ ws2) = ws1 ++ (lower p ++ ws2) := by
      unfold lower
      rw [List.map_append, List.map_append]
      rw [show List.map Char.toLower ws1 = ws1 from lower_of_ws ws1 hws1]
      rw [show List.map Char.toLower ws2 = ws2 from lower_of_ws ws2 hws2]
      rw [List.append_assoc]
    rw [e1, trim_ws_append ws1 _ hws1, trim_append_ws _ ws2 hws2]

/-- Witness for C9: on a boolean option, the partials `"TR"` and `"tr"`
produce the same candidates. -/
theorem c9_witness :
    getValueCompletions exSchemaBool (toChars "flag") (toChars "TR") =
      getValueCompletions exSchemaBool (toChars "flag") (toChars "tr") :=
  (c9_value_partial_invariance exSchemaBool (toChars "flag") (toChars "tr") (toChars "TR")
    [] [] (by decide) (by decide) (by decide)).1

/-- Claim C10: a completion request whose zero-indexed line number is at or
past the number of lines of the stored text returns the full unfiltered
key-completion set (the unknown-document fallback), with no log entry. -/
theorem c10_line_out_of_range_fallback (schema : GhosttySchema) (docs : DocStore) (uri : Uri)
    (content : Str) (lineNum character : Nat)
    (hdoc : snapshot docs uri = some content)
    (hline : (linesOf content).length ≤ lineNum) :
    completion schema docs uri lineNum character =
      some { items := getKeyCompletions schema [], logs := [] } := by
  simp [completion, hdoc, hline]

/-- Witness for C10: a one-line document queried at line 5. -/
theorem c10_witness :
    completion { options := [] } [(toChars "u", toChars "a")] (toChars "u") 5 0 =
      some { items := getKeyCompletions { options := [] } [], logs := [] } :=
  c10_line_out_of_range_fallback { options := [] } [(toChars "u", toChars "a")] (toChars "u")
    (toChars "a") 5 0 (by decide) (by decide)

end GhosttyZed
